import Mathlib

/-!
Verification of the CRED-1 domain-credibility pipeline
(`pipeline/build_dataset.py`, `pipeline/enrich_dataset.py`, `examples/usage.py`).

Shallow embedding conventions:
* Python `str` is modelled as Lean `String` (with the character-level string
  functions defined on `List Char`); `str.lower` is modelled on the ASCII
  range, and `str.strip()` strips the ASCII whitespace characters.
* Python dicts with a fixed key set whose keys may be absent are modelled as
  structures with `Option` fields (an absent key and a key stored as `None`
  are identified; no code path distinguishes them).
* Python floats are modelled as exact arithmetic (`ℚ` for data plumbing,
  `ℝ` where `math.log10` is involved); `round(x, n)` is modelled as
  `round (x * 10^n) / 10^n` with Mathlib's `round`.  (Python rounds
  half-to-even; the two conventions agree away from exact ties, and no
  property proved below depends on tie behaviour.)
* The per-source domain maps consumed by `merge_entries` are modelled
  extensionally as `String → Option Entry`; the output record set is the
  pointwise merged map (the real code additionally serializes it sorted by
  key, which is irrelevant to record-set equality).
* Datetimes in the RDAP step are modelled as integer day numbers, so that
  Python's `(now - reg_date).days` is plain integer subtraction;
  `datetime.fromisoformat` of the cached ISO string is modelled by the cache
  storing the parsed day number as an `Option ℤ` (parse failure = `none`).
-/

/-! ## Character / string model of the Python string primitives used -/

/-- ASCII lowercase conversion, modelling `str.lower` on the ASCII range. -/
def pyToLower (c : Char) : Char :=
  if 'A' ≤ c ∧ c ≤ 'Z' then Char.ofNat (c.toNat + 32) else c

/-- The ASCII whitespace characters stripped by Python's `str.strip()`. -/
def pySpace (c : Char) : Bool :=
  c = ' ' ∨ c = '\t' ∨ c = '\n' ∨ c = '\r' ∨ c = '\x0b' ∨ c = '\x0c'

/-- Model of `s.lower()` on the character list. -/
def pyLower (l : List Char) : List Char := l.map pyToLower

/-- Model of `s.rstrip(cs)`: drop the maximal trailing run of characters
satisfying `p`. -/
def rstripP (p : Char → Bool) (l : List Char) : List Char :=
  (l.reverse.dropWhile p).reverse

/-- Model of `s.strip()`: drop leading and trailing whitespace. -/
def pyStrip (l : List Char) : List Char :=
  rstripP pySpace (l.dropWhile pySpace)

/-- `pyStrip` on `String`. -/
def pyStripS (s : String) : String := ⟨pyStrip s.data⟩

/-- Core of `normalize_domain` (build_dataset.py:128-133) on character lists:
`domain.lower().strip().rstrip("/").rstrip(".")`, then strip one leading
`"www."`. -/
def normCore (l : List Char) : List Char :=
  let d := rstripP (· = '.') (rstripP (· = '/') (pyStrip (pyLower l)))
  if d.take 4 = "www.".data then d.drop 4 else d

/-- `normalize_domain` from build_dataset.py. -/
def normalize_domain (s : String) : String := ⟨normCore s.data⟩

/-- Core of the consumer-side normalization in `check_domain`
(usage.py:16-22): `domain.lower().strip().rstrip("/")`, then strip one
leading `"www."` — note the missing `.rstrip(".")`. -/
def checkDomainNormCore (l : List Char) : List Char :=
  let d := rstripP (· = '/') (pyStrip (pyLower l))
  if d.take 4 = "www.".data then d.drop 4 else d

/-- The normalization applied by `check_domain` in usage.py before lookup. -/
def check_domain_normalize (s : String) : String := ⟨checkDomainNormCore s.data⟩

/-! ### Fixed-point lemmas for the string primitives -/

theorem pyToLower_idem (c : Char) : pyToLower (pyToLower c) = pyToLower c := by
  unfold pyToLower
  by_cases h : 'A' ≤ c ∧ c ≤ 'Z'
  · simp only [h, if_true]
    have hv : c.toNat + 32 < 0xd800 := by
      have : c ≤ 'Z' := h.2
      have : c.toNat ≤ 90 := this
      omega
    have hval : (Char.ofNat (c.toNat + 32)).toNat = c.toNat + 32 := by
      have hvc : Nat.isValidChar (c.toNat + 32) := Or.inl hv
      unfold Char.ofNat
      rw [dif_pos hvc]
      rfl
    have hA : c.toNat ≥ 65 := h.1
    have : ¬ (Char.ofNat (c.toNat + 32) ≤ 'Z') := by
      intro hle
      have : (Char.ofNat (c.toNat + 32)).toNat ≤ 90 := hle
      omega
    simp [this]
  · simp [h]

theorem mem_rstripP {c : Char} {p : Char → Bool} {l : List Char}
    (h : c ∈ rstripP p l) : c ∈ l := by
  unfold rstripP at h
  rw [List.mem_reverse] at h
  have := (List.dropWhile_sublist (l := l.reverse) (p := p)).subset h
  exact List.mem_reverse.mp this

theorem mem_normCore {c : Char} {l : List Char} (h : c ∈ normCore l) :
    c ∈ pyLower l := by
  unfold normCore at h
  by_cases hw : (rstripP (· = '.') (rstripP (· = '/') (pyStrip (pyLower l)))).take 4
      = "www.".data
  · simp only [hw, if_true] at h
    have h1 := List.drop_subset 4 _ h
    have h2 := mem_rstripP h1
    have h3 := mem_rstripP h2
    unfold pyStrip at h3
    have h4 := mem_rstripP h3
    exact (List.dropWhile_sublist (p := pySpace)).subset h4
  · simp only [hw, if_false] at h
    have h2 := mem_rstripP h
    have h3 := mem_rstripP h2
    unfold pyStrip at h3
    have h4 := mem_rstripP h3
    exact (List.dropWhile_sublist (p := pySpace)).subset h4

theorem map_eq_self_of_fixed {f : Char → Char} :
    ∀ l : List Char, (∀ c ∈ l, f c = c) → l.map f = l
  | [], _ => rfl
  | a :: l, h => by
    simp only [List.map_cons, List.cons.injEq]
    exact ⟨h a (List.mem_cons_self a l),
      map_eq_self_of_fixed l fun c hc => h c (List.mem_cons_of_mem a hc)⟩

theorem pyLower_normCore (l : List Char) :
    pyLower (normCore l) = normCore l := by
  apply map_eq_self_of_fixed
  intro c hc
  have hmem := mem_normCore hc
  unfold pyLower at hmem
  obtain ⟨a, _, rfl⟩ := List.mem_map.mp hmem
  exact pyToLower_idem a

theorem dropWhile_eq_self_of_head {p : Char → Bool} :
    ∀ l : List Char, (∀ a, l.head? = some a → p a = false) → l.dropWhile p = l
  | [], _ => rfl
  | a :: l, h => by
    have := h a rfl
    simp [List.dropWhile_cons, this]

theorem rstripP_eq_self_of_getLast {p : Char → Bool} (l : List Char)
    (h : ∀ a, l.getLast? = some a → p a = false) : rstripP p l = l := by
  unfold rstripP
  rw [dropWhile_eq_self_of_head l.reverse (by
    intro a ha
    exact h a (by rwa [List.head?_reverse] at ha)), List.reverse_reverse]

/-- A list satisfying the stated head/last/prefix side conditions is a fixed
point of `normCore`. -/
theorem normCore_fixed (y : List Char)
    (hlow : pyLower y = y)
    (hhead : ∀ a, y.head? = some a → pySpace a = false)
    (hlast : ∀ a, y.getLast? = some a → pySpace a = false ∧ a ≠ '/' ∧ a ≠ '.')
    (hwww : y.take 4 ≠ "www.".data) :
    normCore y = y := by
  unfold normCore pyStrip
  rw [hlow]
  rw [dropWhile_eq_self_of_head y hhead]
  rw [rstripP_eq_self_of_getLast y (fun a ha => (hlast a ha).1)]
  rw [rstripP_eq_self_of_getLast y (fun a ha => by
    simpa using (hlast a ha).2.1)]
  rw [rstripP_eq_self_of_getLast y (fun a ha => by
    simpa using (hlast a ha).2.2)]
  simp [hwww]

/-! ## Category taxonomy (build_dataset.py:42-79, 156, 241) -/

/-- The unified category taxonomy of the dataset. -/
inductive Cat where
  | fake
  | conspiracy
  | unreliable
  | mixed
  | satire
  | other
  | mostly_reliable
  | reliable
  deriving DecidableEq, Fintype

/-- The string name of each category, as used throughout the Python code. -/
def catName : Cat → String
  | Cat.fake => "fake"
  | Cat.conspiracy => "conspiracy"
  | Cat.unreliable => "unreliable"
  | Cat.mixed => "mixed"
  | Cat.satire => "satire"
  | Cat.other => "other"
  | Cat.mostly_reliable => "mostly_reliable"
  | Cat.reliable => "reliable"

/-- `category_priority` (build_dataset.py:156 and :241): worst first. -/
def category_priority : List Cat :=
  [Cat.fake, Cat.conspiracy, Cat.unreliable, Cat.mixed, Cat.satire,
   Cat.other, Cat.mostly_reliable, Cat.reliable]

/-- Severity rank of a category: its index in `category_priority`
(0 = most severe). -/
def sevRank (c : Cat) : ℕ := category_priority.indexOf c

/-- The `primary`-selection loop of build_dataset.py (lines 157-161 and
243-247): the first category of `category_priority` occurring in the given
list, defaulting to `other`. -/
def worstOfList (cats : List Cat) : Cat :=
  (category_priority.find? (fun c => cats.contains c)).getD Cat.other

/-- The two-element case used when merging (build_dataset.py:242-247). -/
def worst2 (a b : Cat) : Cat := worstOfList [a, b]

/-- The same worst-wins resolution on a set of labels (`other` on ∅). -/
def worstF (s : Finset Cat) : Cat :=
  (category_priority.find? (fun c => decide (c ∈ s))).getD Cat.other

/-- `OPENSOURCES_CATEGORY_MAP` (build_dataset.py:46-69). -/
def OPENSOURCES_CATEGORY_MAP : List (String × Cat) :=
  [("fake", Cat.fake), ("fake news", Cat.fake), ("Fake", Cat.fake),
   ("fake ", Cat.fake), ("bias", Cat.mixed), ("conspiracy", Cat.conspiracy),
   ("Conspiracy", Cat.conspiracy), ("satire", Cat.satire),
   ("satirical", Cat.satire), ("unreliable", Cat.unreliable),
   ("unrealiable", Cat.unreliable), (" unreliable", Cat.unreliable),
   ("clickbait", Cat.unreliable), ("political", Cat.mixed),
   ("Political", Cat.mixed), ("junksci", Cat.unreliable),
   ("hate", Cat.unreliable), ("rumor", Cat.unreliable),
   ("rumor ", Cat.unreliable), ("reliable", Cat.reliable),
   ("state", Cat.mixed), ("blog", Cat.other)]

/-- `IFFY_FACTUAL_MAP` (build_dataset.py:72-79). -/
def IFFY_FACTUAL_MAP : List (String × Cat) :=
  [("VL", Cat.fake), ("L", Cat.unreliable), ("M", Cat.mixed),
   ("MH", Cat.mostly_reliable), ("H", Cat.reliable), ("VH", Cat.reliable)]

/-- `OPENSOURCES_CATEGORY_MAP.get(t, "other")` (build_dataset.py:152). -/
def osLabelCat (t : String) : Cat :=
  (OPENSOURCES_CATEGORY_MAP.lookup t).getD Cat.other

/-- `IFFY_FACTUAL_MAP.get(factual, "unreliable")` (build_dataset.py:195). -/
def iffyFactualCat (f : String) : Cat :=
  (IFFY_FACTUAL_MAP.lookup f).getD Cat.unreliable

/-- The compact-output category code: `e["category"][0]`
(build_dataset.py:352, enrich_dataset.py:577). -/
def catLetter (c : Cat) : Char := (catName c).data.headD ' '

/-- The consumer's letter-to-category table `CATEGORIES` (usage.py:25-33). -/
def CATEGORIES : List (Char × String) :=
  [('f', "fake"), ('u', "unreliable"), ('m', "mixed"), ('c', "conspiracy"),
   ('s', "satire"), ('r', "reliable"), ('o', "other")]

/-! ### Properties of the worst-wins resolver -/

set_option maxRecDepth 10000 in
theorem worstF_spec : ∀ s : Finset Cat, s.Nonempty →
    worstF s ∈ s ∧ ∀ c ∈ s, sevRank (worstF s) ≤ sevRank c := by decide

theorem worst2_eq_rank : ∀ a b : Cat,
    worst2 a b = if sevRank a ≤ sevRank b then a else b := by decide

theorem sevRank_injective : ∀ a b : Cat, sevRank a = sevRank b → a = b := by
  decide

theorem worst2_comm : ∀ a b : Cat, worst2 a b = worst2 b a := by decide

theorem worstF_singleton : ∀ c : Cat, worstF {c} = c := by decide

theorem worstF_union (A B : Finset Cat) (hA : A.Nonempty) (hB : B.Nonempty) :
    worstF (A ∪ B) = worst2 (worstF A) (worstF B) := by
  obtain ⟨hmemU, hminU⟩ :=
    worstF_spec (A ∪ B) (hA.mono Finset.subset_union_left)
  obtain ⟨hmemA, hminA⟩ := worstF_spec A hA
  obtain ⟨hmemB, hminB⟩ := worstF_spec B hB
  have hUA : sevRank (worstF (A ∪ B)) ≤ sevRank (worstF A) :=
    hminU _ (Finset.mem_union_left _ hmemA)
  have hUB : sevRank (worstF (A ∪ B)) ≤ sevRank (worstF B) :=
    hminU _ (Finset.mem_union_right _ hmemB)
  rw [worst2_eq_rank]
  rcases Finset.mem_union.mp hmemU with h | h
  · have h1 : sevRank (worstF A) ≤ sevRank (worstF (A ∪ B)) := hminA _ h
    have he : worstF (A ∪ B) = worstF A :=
      sevRank_injective _ _ (le_antisymm hUA h1)
    rw [if_pos (he ▸ hUB)]
    exact he
  · have h1 : sevRank (worstF B) ≤ sevRank (worstF (A ∪ B)) := hminB _ h
    have he : worstF (A ∪ B) = worstF B :=
      sevRank_injective _ _ (le_antisymm hUB h1)
    by_cases hc : sevRank (worstF A) ≤ sevRank (worstF B)
    · have h2 : sevRank (worstF (A ∪ B)) = sevRank (worstF A) :=
        le_antisymm hUA (by rw [he] at hUA ⊢; omega)
      rw [if_pos hc]
      exact sevRank_injective _ _ h2
    · rw [if_neg hc]
      exact he

theorem worstOfList_eq_worstF (l : List Cat) :
    worstOfList l = worstF l.toFinset := by
  unfold worstOfList worstF
  have hp : (fun c => l.contains c) = (fun c => decide (c ∈ l.toFinset)) := by
    funext c
    by_cases h : c ∈ l <;> simp [h, List.mem_toFinset]
  rw [hp]

/-! ## DomainRecord model (build_dataset.py entry dicts) -/

/-- A pipeline record, modelling the per-domain entry dicts of
build_dataset.py / enrich_dataset.py.  Optional dict keys are `Option`
fields defaulting to `none`. -/
structure Entry where
  domain : String
  category : Cat
  categories_all : Finset Cat
  sources : List String
  opensources_types : Option (List String) := none
  iffy_factual : Option String := none
  iffy_bias : Option String := none
  iffy_cred : Option String := none
  iffy_score : Option ℚ := none
  iffy_site_rank : Option ℤ := none
  iffy_year_online : Option ℤ := none
  iffy_lang : Option String := none
  iffy_name : Option String := none
  tranco_rank : Option ℕ := none
  domain_age_years : Option ℚ := none
  domain_registered : Option ℤ := none
  factcheck_claims : Option ℕ := none
  safe_browsing_flagged : Option Bool := none
  deriving DecidableEq

/-- The raw OpenSources fields of one domain:
`info.get("type", "")`, `info.get("2nd type", "")`, `info.get("3rd type", "")`
(absent keys modelled as `none`, `getD ""` applied where the code defaults). -/
structure OsRaw where
  type1 : Option String := none
  type2 : Option String := none
  type3 : Option String := none
  deriving DecidableEq

/-- The mapped label list `types` of parse_opensources
(build_dataset.py:147-153): strip each of the three type fields, skip empty
ones, map the rest through `OPENSOURCES_CATEGORY_MAP` with default `other`. -/
def osTypes (info : OsRaw) : List Cat :=
  ([info.type1, info.type2, info.type3].map (fun o => pyStripS (o.getD ""))).filterMap
    (fun t => if t = "" then none else some (osLabelCat t))

/-- The loop body of `parse_opensources` (build_dataset.py:142-169) for one
raw entry whose normalized (nonempty) domain key is `d`. -/
def parse_opensources_entry (d : String) (info : OsRaw) : Entry :=
  { domain := d
    category := worstOfList (osTypes info)
    categories_all := (osTypes info).toFinset
    sources := ["opensources"]
    opensources_types :=
      some [info.type1.getD "", info.type2.getD "", info.type3.getD ""] }

/-- One row of the Iffy.news CSV, as read by `parse_iffy`
(build_dataset.py:181-193).  The textual columns are the raw cell strings;
the numeric columns carry the result of the `try: float/int` parses
(`none` on absence or parse failure). -/
structure IffyRow where
  factual : String := ""
  bias : String := ""
  cred : String := ""
  score : Option ℚ := none
  siteRank : Option ℤ := none
  yearOnline : Option ℤ := none
  lang : String := ""
  name : String := ""
  deriving DecidableEq

/-- The loop body of `parse_iffy` (build_dataset.py:181-225) for one row
whose normalized (nonempty) domain key is `d`. -/
def parse_iffy_row (d : String) (row : IffyRow) : Entry :=
  { domain := d
    category := iffyFactualCat (pyStripS row.factual)
    categories_all := {iffyFactualCat (pyStripS row.factual)}
    sources := ["iffy"]
    iffy_factual := some (pyStripS row.factual)
    iffy_bias := some (pyStripS row.bias)
    iffy_cred := some (pyStripS row.cred)
    iffy_score := row.score
    iffy_site_rank := row.siteRank
    iffy_year_online := row.yearOnline
    iffy_lang := some (pyStripS row.lang)
    iffy_name := some (pyStripS row.name) }

/-! ## Source merger (build_dataset.py:230-270) -/

/-- The both-sources branch of `merge_entries` (build_dataset.py:239-263):
worst category of the two, union of `categories_all`, fixed `sources`,
iffy metadata copied from the second (iffy) entry, `opensources_types`
copied from the first (opensources) entry. -/
def mergeBoth (d : String) (o i : Entry) : Entry :=
  { domain := d
    category := worst2 o.category i.category
    categories_all := o.categories_all ∪ i.categories_all
    sources := ["opensources", "iffy"]
    opensources_types := o.opensources_types
    iffy_factual := i.iffy_factual
    iffy_bias := i.iffy_bias
    iffy_cred := i.iffy_cred
    iffy_score := i.iffy_score
    iffy_site_rank := i.iffy_site_rank
    iffy_year_online := i.iffy_year_online
    iffy_lang := i.iffy_lang
    iffy_name := i.iffy_name }

/-- The per-domain case split of `merge_entries` (build_dataset.py:235-268). -/
def mergeAt (d : String) : Option Entry → Option Entry → Option Entry
  | some o, some i => some (mergeBoth d o i)
  | some o, none => some o
  | none, some i => some i
  | none, none => none

/-- `merge_entries`, with the per-source dicts and the output record set
modelled extensionally as maps `String → Option Entry`. -/
def merge_entries (opensources iffy : String → Option Entry) :
    String → Option Entry :=
  fun d => mergeAt d (opensources d) (iffy d)

/-- The order-insensitive projection of a record: domain, category,
`categories_all` and `sources`. -/
def entryView (e : Entry) : String × Cat × Finset Cat × List String :=
  (e.domain, e.category, e.categories_all, e.sources)

/-! ## Enrichment caches (enrich_dataset.py) -/

/-- The two-level public-suffix list of `get_base_domain`
(enrich_dataset.py:157). -/
def TWO_LEVEL_TLDS : List String :=
  ["co.uk", "com.au", "co.nz", "co.za", "com.br", "co.in", "org.uk", "net.au"]

/-- Model of `domain.split(".")` on the character list (same behaviour as
Python's `str.split` with a one-character separator). -/
def splitOnDot (l : List Char) : List (List Char) :=
  l.foldr
    (fun c acc =>
      if c = '.' then [] :: acc
      else
        match acc with
        | [] => [[c]]
        | h :: t => (c :: h) :: t)
    [[]]

/-- `get_base_domain` (enrich_dataset.py:153-162): keep the last two
dot-separated parts, or three when the last two form a known two-level
public suffix.  `".".join(parts[-k:])` is `List.intercalate` over the last
`k` parts. -/
def get_base_domain (domain : String) : String :=
  let parts := splitOnDot domain.data
  if 3 ≤ parts.length ∧
      (⟨List.intercalate ['.'] (parts.drop (parts.length - 2))⟩ : String)
        ∈ TWO_LEVEL_TLDS then
    ⟨List.intercalate ['.'] (parts.drop (parts.length - 3))⟩
  else if 2 ≤ parts.length then
    ⟨List.intercalate ['.'] (parts.drop (parts.length - 2))⟩
  else domain

/-- A value of the RDAP cache file: the fields of the stored dict read back
by `step_rdap` (`"error"` and `"registered"`; the `"expires"`/`"updated"`
dates are stored but never read).  The registration date is the parsed day
number of the ISO string, `none` when absent or unparseable. -/
structure RdapVal where
  registered : Option ℤ := none
  error : Bool := false
  deriving DecidableEq

/-- `round(x, 1)`. -/
def round1 (x : ℚ) : ℚ := (round (x * 10) : ℤ) / 10

/-- The cache-application loop of `step_rdap` (enrich_dataset.py:248-264)
for one entry: on a cached, non-error value with a registration date,
attach `domain_age_years` (computed from the current day `now`) and
`domain_registered`. -/
def rdapApply (now : ℤ) (cache : String → Option RdapVal) (e : Entry) :
    Entry :=
  match cache (get_base_domain e.domain) with
  | none => e
  | some v =>
    if v.error then e
    else
      match v.registered with
      | none => e
      | some reg =>
        { e with
          domain_age_years := some (round1 (((now - reg : ℤ) : ℚ) / 365.25))
          domain_registered := some reg }

/-- `step_rdap` (enrich_dataset.py:193-273).  `now` is the current day;
`q` models `query_rdap` (`none` = failure, recorded as an error marker).
Returns (queried base domains, final cache, enriched entries). -/
def step_rdap (now : ℤ) (q : String → Option (Option ℤ))
    (cache : String → Option RdapVal) (entries : List Entry) (limit : ℕ) :
    List String × (String → Option RdapVal) × List Entry :=
  let toQ0 := entries.filter (fun e => (cache (get_base_domain e.domain)).isNone)
  let toQ := if 0 < limit then toQ0.take limit else toQ0
  let cache2 := toQ.foldl (fun c e =>
    let base := get_base_domain e.domain
    if (c base).isSome then c
    else
      Function.update c base (some (match q base with
        | some reg => { registered := reg, error := false }
        | none => { registered := none, error := true }))) cache
  (toQ.map (fun e => get_base_domain e.domain), cache2,
    entries.map (rdapApply now cache2))

/-- A value of the fact-check cache file: the `claim_count` key of the
stored dict (`none` when the stored dict lacks it, e.g. a rate-limit
marker); the `error` key is stored but never read back. -/
structure FcVal where
  claim_count : Option ℕ := none
  deriving DecidableEq

/-- The cache-application loop of `step_factcheck`
(enrich_dataset.py:352-360) for one entry:
`count = cache.get(domain, default).get("claim_count", 0)`, attached when
positive. -/
def fcApply (cache : String → Option FcVal) (e : Entry) : Entry :=
  let count := ((cache e.domain).map (fun v => v.claim_count.getD 0)).getD 0
  if 0 < count then { e with factcheck_claims := some count } else e

/-- `step_factcheck` (enrich_dataset.py:299-373).  `q` models
`query_factcheck` (including its internal rate-limit retry).  Returns
(queried domains, final cache, enriched entries). -/
def step_factcheck (q : String → FcVal) (cache : String → Option FcVal)
    (entries : List Entry) (limit : ℕ) :
    List String × (String → Option FcVal) × List Entry :=
  let toQ0 := entries.filter (fun e => (cache e.domain).isNone)
  let toQ := if 0 < limit then toQ0.take limit else toQ0
  let cache2 := toQ.foldl (fun c e =>
    if (c e.domain).isSome then c
    else Function.update c e.domain (some (q e.domain))) cache
  (toQ.map (fun e => e.domain), cache2, entries.map (fcApply cache2))

/-! ## Scoring engine (enrich_dataset.py:466-551) -/

/-- The fields of an enriched record read by `step_score`. -/
structure ScoreInput where
  category : Cat
  iffy_score : Option ℝ := none
  tranco_rank : Option ℕ := none
  domain_age_years : Option ℝ := none
  factcheck_claims : Option ℕ := none
  safe_browsing_flagged : Option Bool := none

/-- `CATEGORY_SCORES` (enrich_dataset.py:470-479); the taxonomy is closed,
so the `.get(..., 0.5)` default is never taken. -/
noncomputable def catScore : Cat → ℝ
  | Cat.reliable => 1.0
  | Cat.mostly_reliable => 0.8
  | Cat.mixed => 0.5
  | Cat.satire => 0.3
  | Cat.other => 0.5
  | Cat.unreliable => 0.2
  | Cat.conspiracy => 0.1
  | Cat.fake => 0.0

/-- The Tranco popularity signal (enrich_dataset.py:495). -/
noncomputable def trancoSignal (rank : ℕ) : ℝ :=
  max 0 (1 - Real.logb 10 ((max rank 1 : ℕ) : ℝ) / 6)

/-- The domain-age signal (enrich_dataset.py:501). -/
noncomputable def ageSignal (age : ℝ) : ℝ := min 1 (age / 20)

/-- The fact-check signal (enrich_dataset.py:508). -/
noncomputable def fcSignal (claims : ℕ) : ℝ :=
  max 0 (1 - Real.logb 10 ((max claims 1 : ℕ) : ℝ) / 1.7)

/-- One `weighted_sum += w * sig; weights_total += w` step applied to an
optional signal (enrich_dataset.py:517-531). -/
noncomputable def addOpt (acc : ℝ × ℝ) (w : ℝ) : Option ℝ → ℝ × ℝ
  | some v => (acc.1 + w * v, acc.2 + w)
  | none => acc

/-- The score computed by the loop body of `step_score`
(enrich_dataset.py:481-541) for one record, before the final `round(., 3)`. -/
noncomputable def step_score_one (e : ScoreInput) : ℝ :=
  let cat_score := catScore e.category
  let acc1 := addOpt (0.50 * cat_score, 0.50) 0.15 e.iffy_score
  let acc2 := addOpt acc1 0.05 (e.tranco_rank.map trancoSignal)
  let acc3 := addOpt acc2 0.05 (e.domain_age_years.map ageSignal)
  let fc := e.factcheck_claims.getD 0
  let acc4 := addOpt acc3 0.15 (if 0 < fc then some (fcSignal fc) else none)
  let s := if acc4.2 < 1 then acc4.1 + (1 - acc4.2) * cat_score else acc4.1
  if e.safe_browsing_flagged.getD false then min s 0.05 else s

/-- `round(x, 3)`. -/
noncomputable def round3 (x : ℝ) : ℝ := (round (x * 1000) : ℤ) / 1000

/-- `entry["credibility_score"] = round(score, 3)` (enrich_dataset.py:543). -/
noncomputable def credibility_score (e : ScoreInput) : ℝ :=
  round3 (step_score_one e)

/-! ### Scoring range lemmas -/

theorem roundIntMono {x y : ℝ} (h : x ≤ y) : round x ≤ round y := by
  rw [round_eq, round_eq]
  exact Int.floor_le_floor (by linarith)

theorem round3_mem {x : ℝ} (h0 : 0 ≤ x) (h1 : x ≤ 1) :
    0 ≤ round3 x ∧ round3 x ≤ 1 := by
  unfold round3
  constructor
  · have h : round ((0:ℝ)) ≤ round (x * 1000) := roundIntMono (by nlinarith)
    rw [round_zero] at h
    have : (0:ℝ) ≤ ((round (x * 1000) : ℤ) : ℝ) := by exact_mod_cast h
    linarith
  · have h : round (x * 1000) ≤ round (((1000:ℤ) : ℝ)) :=
      roundIntMono (by push_cast; nlinarith)
    rw [round_intCast] at h
    have : ((round (x * 1000) : ℤ) : ℝ) ≤ 1000 := by exact_mod_cast h
    linarith

theorem round3_le_cap {x : ℝ} (h : x ≤ 0.05) : round3 x ≤ 0.05 := by
  unfold round3
  have h1 : round (x * 1000) ≤ round (((50:ℤ) : ℝ)) :=
    roundIntMono (by push_cast; nlinarith)
  rw [round_intCast] at h1
  have : ((round (x * 1000) : ℤ) : ℝ) ≤ 50 := by exact_mod_cast h1
  linarith

theorem catScore_mem (c : Cat) : 0 ≤ catScore c ∧ catScore c ≤ 1 := by
  cases c <;> norm_num [catScore]

theorem round3_catScore (c : Cat) : round3 (catScore c) = catScore c := by
  cases c <;> norm_num [round3, catScore]

theorem trancoSignal_mem (r : ℕ) :
    0 ≤ trancoSignal r ∧ trancoSignal r ≤ 1 := by
  unfold trancoSignal
  have hlog : 0 ≤ Real.logb 10 ((max r 1 : ℕ) : ℝ) := by
    apply Real.logb_nonneg (by norm_num)
    exact_mod_cast Nat.le_max_right r 1
  have hdiv : 0 ≤ Real.logb 10 ((max r 1 : ℕ) : ℝ) / 6 :=
    div_nonneg hlog (by norm_num)
  constructor
  · exact le_max_left 0 _
  · apply max_le (by norm_num)
    linarith

theorem ageSignal_mem {a : ℝ} (ha : 0 ≤ a) :
    0 ≤ ageSignal a ∧ ageSignal a ≤ 1 := by
  unfold ageSignal
  constructor
  · apply le_min (by norm_num)
    linarith
  · exact min_le_left 1 _

theorem fcSignal_mem (n : ℕ) : 0 ≤ fcSignal n ∧ fcSignal n ≤ 1 := by
  unfold fcSignal
  have hlog : 0 ≤ Real.logb 10 ((max n 1 : ℕ) : ℝ) := by
    apply Real.logb_nonneg (by norm_num)
    exact_mod_cast Nat.le_max_right n 1
  have hdiv : 0 ≤ Real.logb 10 ((max n 1 : ℕ) : ℝ) / 1.7 :=
    div_nonneg hlog (by norm_num)
  constructor
  · exact le_max_left 0 _
  · apply max_le (by norm_num)
    linarith

theorem addOpt_invariant (acc : ℝ × ℝ) (w : ℝ) (s : Option ℝ)
    (hacc : 0 ≤ acc.1 ∧ acc.1 ≤ acc.2) (hw : 0 ≤ w)
    (hs : ∀ v, s = some v → 0 ≤ v ∧ v ≤ 1) :
    (0 ≤ (addOpt acc w s).1 ∧ (addOpt acc w s).1 ≤ (addOpt acc w s).2) ∧
      acc.2 ≤ (addOpt acc w s).2 ∧ (addOpt acc w s).2 ≤ acc.2 + w := by
  cases s with
  | none =>
    refine ⟨hacc, le_refl _, ?_⟩
    show acc.2 ≤ acc.2 + w
    linarith
  | some v =>
    obtain ⟨hv0, hv1⟩ := hs v rfl
    simp only [addOpt]
    exact ⟨⟨by nlinarith [hacc.1], by nlinarith [hacc.2]⟩, by linarith,
      le_refl _⟩

/-- The pre-rounding score lies in `[0, 1]` whenever every present signal is
within its declared range. -/
theorem step_score_one_mem (e : ScoreInput)
    (hiffy : ∀ v, e.iffy_score = some v → 0 ≤ v ∧ v ≤ 1)
    (hage : ∀ a, e.domain_age_years = some a → 0 ≤ a) :
    0 ≤ step_score_one e ∧ step_score_one e ≤ 1 := by
  obtain ⟨hc0, hc1⟩ := catScore_mem e.category
  unfold step_score_one
  set cat_score := catScore e.category with hcat
  have h1 := addOpt_invariant (0.50 * cat_score, 0.50) 0.15
    e.iffy_score ⟨by nlinarith, by simp only; nlinarith⟩ (by norm_num)
    hiffy
  set acc1 := addOpt (0.50 * cat_score, 0.50) 0.15 e.iffy_score with hacc1
  have h2 := addOpt_invariant acc1 0.05
    (e.tranco_rank.map trancoSignal) h1.1 (by norm_num)
    (by
      intro v hv
      obtain ⟨r, _, rfl⟩ := Option.map_eq_some'.mp hv
      exact trancoSignal_mem r)
  set acc2 := addOpt acc1 0.05 (e.tranco_rank.map trancoSignal) with hacc2
  have h3 := addOpt_invariant acc2 0.05
    (e.domain_age_years.map ageSignal) h2.1 (by norm_num)
    (by
      intro v hv
      obtain ⟨a, ha, rfl⟩ := Option.map_eq_some'.mp hv
      exact ageSignal_mem (hage a ha))
  set acc3 := addOpt acc2 0.05 (e.domain_age_years.map ageSignal) with hacc3
  set fc := e.factcheck_claims.getD 0 with hfc
  have h4 := addOpt_invariant acc3 0.15
    (if 0 < fc then some (fcSignal fc) else none) h3.1 (by norm_num)
    (by
      intro v hv
      by_cases hpos : 0 < fc
      · rw [if_pos hpos, Option.some.injEq] at hv
        exact hv ▸ fcSignal_mem fc
      · rw [if_neg hpos] at hv
        exact absurd hv (Option.noConfusion))
  set acc4 := addOpt acc3 0.15 (if 0 < fc then some (fcSignal fc) else none)
    with hacc4
  have hw50 : (0.50:ℝ) ≤ acc4.2 := by
    have := h2.2.1
    have := h3.2.1
    have := h4.2.1
    linarith
  have hbounds : 0 ≤ acc4.1 ∧ acc4.1 ≤ acc4.2 := h4.1
  set s := if acc4.2 < 1 then acc4.1 + (1 - acc4.2) * cat_score else acc4.1
    with hs
  have hsmem : 0 ≤ s ∧ s ≤ 1 := by
    rw [hs]
    by_cases hlt : acc4.2 < 1
    · rw [if_pos hlt]
      constructor
      · nlinarith [hbounds.1]
      · nlinarith [hbounds.2]
    · rw [if_neg hlt]
      push_neg at hlt
      have hup : acc4.2 ≤ 0.50 + 0.15 + 0.05 + 0.05 + 0.15 := by
        have := h1.2.2
        have := h2.2.2
        have := h3.2.2
        have := h4.2.2
        simp only at this ⊢
        linarith
      constructor
      · exact hbounds.1
      · linarith [hbounds.2]
  by_cases hsb : e.safe_browsing_flagged.getD false
  · rw [if_pos hsb]
    exact ⟨le_min hsmem.1 (by norm_num), le_trans (min_le_left _ _) hsmem.2⟩
  · rw [if_neg hsb]
    exact hsmem

/-- With no optional signal present, the redistribution step returns the
pure category score. -/
theorem step_score_one_all_absent (e : ScoreInput)
    (h1 : e.iffy_score = none) (h2 : e.tranco_rank = none)
    (h3 : e.domain_age_years = none) (h4 : e.factcheck_claims.getD 0 = 0)
    (h5 : e.safe_browsing_flagged.getD false = false) :
    step_score_one e = catScore e.category := by
  unfold step_score_one
  rw [h1, h2, h3, h4, h5]
  simp only [Option.map_none', addOpt]
  norm_num
  ring

theorem fcSignal_one : fcSignal 1 = 1 := by
  unfold fcSignal
  norm_num [Real.logb_one]

theorem logb_ten_fifty : (1683/1000 : ℝ) ≤ Real.logb 10 50 := by
  have hlogpos : 0 < Real.log 10 := Real.log_pos (by norm_num)
  have hle : ((10:ℝ) ^ (1683:ℕ)) ≤ ((50:ℝ) ^ (1000:ℕ)) := by
    have h : (10:ℕ) ^ 1683 ≤ (50:ℕ) ^ 1000 := by norm_num
    exact_mod_cast h
  have hlog := (Real.log_le_log_iff (by positivity) (by positivity)).mpr hle
  rw [Real.log_pow, Real.log_pow] at hlog
  rw [Real.logb, le_div_iff₀ hlogpos]
  push_cast at hlog
  linarith

theorem fcSignal_le_of_fifty {n : ℕ} (hn : 50 ≤ n) : fcSignal n ≤ 1/100 := by
  unfold fcSignal
  have hmax : (max n 1 : ℕ) = n := max_eq_left (by omega)
  rw [hmax]
  have h50 : (50:ℝ) ≤ (n : ℝ) := by exact_mod_cast hn
  have hmono : Real.logb 10 50 ≤ Real.logb 10 (n : ℝ) :=
    Real.logb_le_logb_of_le (b := 10) (by norm_num) (by norm_num) h50
  have hL : (1683/1000 : ℝ) ≤ Real.logb 10 (n : ℝ) :=
    le_trans logb_ten_fifty hmono
  apply max_le (by norm_num)
  have hdiv : (1683/1000 : ℝ) / 1.7 ≤ Real.logb 10 (n : ℝ) / 1.7 := by
    apply div_le_div_of_nonneg_right hL (by norm_num)
  norm_num at hdiv ⊢
  linarith

/-! ## Claims -/

/-- C1: For every record scored by `step_score`, with each present optional
signal within its declared range (`iffy_score` in [0,1], `tranco_rank` a
positive integer, `domain_age_years` non-negative, `factcheck_claims` a
natural number), the computed `credibility_score` lies in [0,1]; with all
optional signals absent it equals the pure category base score. -/
theorem c1_credibility_score_range (e : ScoreInput)
    (hiffy : ∀ v, e.iffy_score = some v → 0 ≤ v ∧ v ≤ 1)
    (htranco : ∀ r, e.tranco_rank = some r → 1 ≤ r)
    (hage : ∀ a, e.domain_age_years = some a → 0 ≤ a) :
    (0 ≤ credibility_score e ∧ credibility_score e ≤ 1) ∧
      (e.iffy_score = none → e.tranco_rank = none →
        e.domain_age_years = none → e.factcheck_claims.getD 0 = 0 →
        e.safe_browsing_flagged.getD false = false →
        credibility_score e = catScore e.category) := by
  constructor
  · obtain ⟨h0, h1⟩ := step_score_one_mem e hiffy hage
    exact round3_mem h0 h1
  · intro h1 h2 h3 h4 h5
    unfold credibility_score
    rw [step_score_one_all_absent e h1 h2 h3 h4 h5, round3_catScore]

theorem c1_credibility_score_range_witness :
    (0 ≤ credibility_score ⟨Cat.fake, none, none, none, none, none⟩ ∧
      credibility_score ⟨Cat.fake, none, none, none, none, none⟩ ≤ 1) ∧
      ((⟨Cat.fake, none, none, none, none, none⟩ : ScoreInput).iffy_score = none →
        (⟨Cat.fake, none, none, none, none, none⟩ : ScoreInput).tranco_rank = none →
        (⟨Cat.fake, none, none, none, none, none⟩ : ScoreInput).domain_age_years = none →
        ((⟨Cat.fake, none, none, none, none, none⟩ : ScoreInput).factcheck_claims).getD 0 = 0 →
        ((⟨Cat.fake, none, none, none, none, none⟩ : ScoreInput).safe_browsing_flagged).getD false = false →
        credibility_score ⟨Cat.fake, none, none, none, none, none⟩
          = catScore Cat.fake) :=
  c1_credibility_score_range ⟨Cat.fake, none, none, none, none, none⟩
    (by simp) (by simp) (by simp)

/-- C3: a record whose safe-browsing flag is set gets a final
`credibility_score` of at most 0.05, whatever the category and the other
signals are (hard cap, not a blend). -/
theorem c3_safe_browsing_cap (e : ScoreInput)
    (h : e.safe_browsing_flagged.getD false = true) :
    credibility_score e ≤ 0.05 := by
  unfold credibility_score
  apply round3_le_cap
  unfold step_score_one
  rw [h]
  simp only [if_true]
  exact min_le_right _ _

theorem c3_safe_browsing_cap_witness :
    credibility_score ⟨Cat.reliable, some 1, some 1, some 20, some 1,
      some true⟩ ≤ 0.05 :=
  c3_safe_browsing_cap
    ⟨Cat.reliable, some 1, some 1, some 20, some 1, some true⟩ rfl

/-- C9 (amended): for a record whose only present optional signal is a
positive fact-check claim count `c`, the pre-rounding score is
`0.85 * catScore + 0.15 * fcSignal c` with `fcSignal` the transform
`max(0, 1 - log10(max(claims, 1)) / 1.7)`; at exactly 1 claim the signal is
exactly 1.0 (not ≈ 0.8), and at 50 or more claims it is at most 0.01. -/
theorem c9_factcheck_signal (e : ScoreInput) (c n : ℕ)
    (hc : e.factcheck_claims.getD 0 = c) (hpos : 0 < c)
    (h1 : e.iffy_score = none) (h2 : e.tranco_rank = none)
    (h3 : e.domain_age_years = none)
    (h5 : e.safe_browsing_flagged.getD false = false) (hn : 50 ≤ n) :
    step_score_one e = 0.85 * catScore e.category + 0.15 * fcSignal c ∧
      fcSignal 1 = 1 ∧ fcSignal n ≤ 1/100 := by
  refine ⟨?_, fcSignal_one, fcSignal_le_of_fifty hn⟩
  unfold step_score_one
  rw [h1, h2, h3, hc, h5]
  simp only [Option.map_none', addOpt, if_pos hpos]
  norm_num
  ring

theorem c9_factcheck_signal_witness :
    (step_score_one ⟨Cat.fake, none, none, none, some 1, none⟩
        = 0.85 * catScore Cat.fake + 0.15 * fcSignal 1 ∧
      fcSignal 1 = 1 ∧ fcSignal 50 ≤ 1/100) :=
  c9_factcheck_signal ⟨Cat.fake, none, none, none, some 1, none⟩ 1 50
    rfl (by decide) rfl rfl rfl rfl (by decide)

/-- C9 counterexample: at exactly one fact-check claim the code's signal is
exactly 1, a deviation of 0.2 from the claimed approximately 0.8. -/
theorem c9_counterexample : fcSignal 1 = 1 ∧ |fcSignal 1 - 0.8| = 0.2 := by
  refine ⟨fcSignal_one, ?_⟩
  rw [fcSignal_one, show (1:ℝ) - 0.8 = 0.2 by norm_num,
    abs_of_pos (by norm_num)]

/-- C10: the compact output encodes the category as the first character of
its name; `mixed` and `mostly_reliable` both encode to the letter m, the
consumer's table decodes m as `mixed`, so a `mostly_reliable` record does
not round-trip to its original category. -/
theorem c10_category_letter_collision :
    catLetter Cat.mixed = 'm' ∧ catLetter Cat.mostly_reliable = 'm' ∧
      Cat.mixed ≠ Cat.mostly_reliable ∧
      (CATEGORIES.lookup (catLetter Cat.mostly_reliable)).getD "unknown"
        = catName Cat.mixed ∧
      catName Cat.mostly_reliable ≠ catName Cat.mixed := by decide

theorem normalize_domain_data (s : String) :
    (normalize_domain s).data = normCore s.data := rfl

/-- C2 counterexample: `normalize_domain` is not idempotent.  On the input
"a/." the `rstrip(".")` re-exposes a trailing slash: the first application
returns "a/" and the second returns "a". -/
theorem c2_counterexample :
    normalize_domain (normalize_domain "a/.") ≠ normalize_domain "a/." := by
  decide

/-- C2 (amended): `normalize_domain` is idempotent on every input whose
normalized form has no leading or trailing whitespace, does not end in a
slash or a dot, and does not start with "www." — in particular on every
input normalizing to a well-formed bare domain.  (In general it is not
idempotent: a trailing "/." leaves a trailing slash, leading "www.www."
loses one "www." per application.) -/
theorem c2_normalize_idempotent_on_clean (x : String)
    (hhead : pySpace ((normalize_domain x).data.headD 'a') = false)
    (hlast : pySpace ((normalize_domain x).data.getLastD 'a') = false ∧
      (normalize_domain x).data.getLastD 'a' ≠ '/' ∧
      (normalize_domain x).data.getLastD 'a' ≠ '.')
    (hwww : (normalize_domain x).data.take 4 ≠ "www.".data) :
    normalize_domain (normalize_domain x) = normalize_domain x := by
  rw [normalize_domain_data] at hhead hlast hwww
  have hfix := normCore_fixed (normCore x.data) (pyLower_normCore x.data)
    (by
      intro a ha
      have hd : (normCore x.data).headD 'a' = a := by
        rw [List.headD_eq_head?, ha]
        rfl
      rw [← hd]
      exact hhead)
    (by
      intro a ha
      have hd : (normCore x.data).getLastD 'a' = a := by
        rw [List.getLastD_eq_getLast?, ha]
        rfl
      rw [← hd]
      exact hlast)
    hwww
  apply String.ext
  rw [normalize_domain_data, normalize_domain_data]
  exact hfix

theorem c2_normalize_idempotent_on_clean_witness :
    normalize_domain (normalize_domain "WWW.Example.com/") =
      normalize_domain "WWW.Example.com/" :=
  c2_normalize_idempotent_on_clean "WWW.Example.com/" (by decide)
    ⟨by decide, by decide, by decide⟩ (by decide)

/-- C8 counterexample: the consumer's normalization in `check_domain` skips
the `rstrip(".")` of the pipeline's `normalize_domain`, so the two differ
on "example.com.". -/
theorem c8_counterexample :
    check_domain_normalize "example.com." ≠ normalize_domain "example.com." := by
  decide

/-- C8 (amended): the consumer's `check_domain` normalization agrees with
the pipeline's `normalize_domain` exactly on inputs whose
lowercased/stripped/slash-stripped form has no trailing dot; it differs on
inputs with trailing dots, which the pipeline strips and the consumer
keeps. -/
theorem c8_consumer_normalization_agrees (x : String)
    (h : (rstripP (· = '/') (pyStrip (pyLower x.data))).getLastD 'a' ≠ '.') :
    check_domain_normalize x = normalize_domain x := by
  unfold check_domain_normalize normalize_domain checkDomainNormCore normCore
  have hdot : rstripP (· = '.') (rstripP (· = '/') (pyStrip (pyLower x.data)))
      = rstripP (· = '/') (pyStrip (pyLower x.data)) := by
    apply rstripP_eq_self_of_getLast
    intro a ha
    have hd : (rstripP (· = '/') (pyStrip (pyLower x.data))).getLastD 'a'
        = a := by
      rw [List.getLastD_eq_getLast?, ha]
      rfl
    rw [← hd] at *
    simpa using h
  rw [hdot]

theorem c8_consumer_normalization_agrees_witness :
    check_domain_normalize "WWW.Example.com/" =
      normalize_domain "WWW.Example.com/" :=
  c8_consumer_normalization_agrees "WWW.Example.com/" (by decide)

/-- A sample OpenSources-side entry for the merge counterexample. -/
def c4osE : Entry :=
  { domain := "x.com", category := Cat.fake, categories_all := {Cat.fake},
    sources := ["opensources"], opensources_types := some ["fake", "", ""] }

/-- A sample Iffy-side entry for the merge counterexample. -/
def c4ifE : Entry :=
  { domain := "x.com", category := Cat.unreliable,
    categories_all := {Cat.unreliable}, sources := ["iffy"],
    iffy_factual := some "L", iffy_bias := some "R", iffy_cred := some "L",
    iffy_score := some (47/100), iffy_lang := some "en",
    iffy_name := some "X" }

/-- C4 counterexample: `merge_entries` is not symmetric in its two map
arguments.  Swapping them copies the iffy metadata from the opensources
entry (where it is absent) and `opensources_types` from the iffy entry
(where it is absent), so the merged records differ. -/
theorem c4_counterexample :
    (merge_entries (fun d => if d = "x.com" then some c4osE else none)
        (fun d => if d = "x.com" then some c4ifE else none) "x.com").map
        Entry.iffy_score ≠
      (merge_entries (fun d => if d = "x.com" then some c4ifE else none)
        (fun d => if d = "x.com" then some c4osE else none) "x.com").map
        Entry.iffy_score := by
  decide

/-- C4 (amended): per merged domain, the two argument orders of
`merge_entries` agree on domain, category, `categories_all` and `sources`
(the view of `entryView`), and merging with the empty map on either side is
the identity; but the carried-through source metadata (the `iffy_*` fields
and `opensources_types`) is copied positionally, so swapped arguments can
drop it. -/
theorem c4_merge_order_view (a b : String → Option Entry) (d : String) :
    (merge_entries a b d).map entryView = (merge_entries b a d).map entryView ∧
      merge_entries a (fun _ => none) = a ∧
      merge_entries (fun _ => none) a = a := by
  refine ⟨?_, funext fun d' => ?_, funext fun d' => ?_⟩
  · unfold merge_entries mergeAt
    cases a d <;> cases b d <;>
      simp [mergeBoth, entryView, worst2_comm, Finset.union_comm]
  · unfold merge_entries mergeAt
    cases a d' <;> rfl
  · unfold merge_entries mergeAt
    cases a d' <;> rfl

/-- C5 counterexample: an Iffy factual rating absent from
`IFFY_FACTUAL_MAP` maps to `unreliable`, not to `other` as claimed. -/
theorem c5_counterexample :
    IFFY_FACTUAL_MAP.lookup "X" = none ∧
      iffyFactualCat "X" = Cat.unreliable ∧ iffyFactualCat "X" ≠ Cat.other := by
  decide

/-- C5 (amended): label mapping goes through the two explicit lookup
tables; a label missing from `OPENSOURCES_CATEGORY_MAP` maps to `other`,
while a factual rating missing from `IFFY_FACTUAL_MAP` maps to
`unreliable` (not `other`), which is then the category of the parsed Iffy
record. -/
theorem c5_lookup_defaults (t d : String) (row : IffyRow)
    (ht : OPENSOURCES_CATEGORY_MAP.lookup t = none)
    (hf : IFFY_FACTUAL_MAP.lookup (pyStripS row.factual) = none) :
    osLabelCat t = Cat.other ∧
      iffyFactualCat (pyStripS row.factual) = Cat.unreliable ∧
      (parse_iffy_row d row).category = Cat.unreliable := by
  refine ⟨?_, ?_, ?_⟩
  · unfold osLabelCat
    rw [ht]
    rfl
  · unfold iffyFactualCat
    rw [hf]
    rfl
  · show iffyFactualCat (pyStripS row.factual) = Cat.unreliable
    unfold iffyFactualCat
    rw [hf]
    rfl

theorem c5_lookup_defaults_witness :
    osLabelCat "zzz" = Cat.other ∧
      iffyFactualCat (pyStripS ({ factual := "X" } : IffyRow).factual)
        = Cat.unreliable ∧
      (parse_iffy_row "x.com" { factual := "X" }).category
        = Cat.unreliable :=
  c5_lookup_defaults "zzz" "x.com" { factual := "X" } (by decide) (by decide)

/-- C6 counterexample: an OpenSources entry with no mapped labels defaults
to category `other` with empty `categories_all`; merged with a `reliable`
Iffy entry, the merged record has category `other` but
`categories_all = {reliable}`, so its category is not a member of (let
alone the most severe label of) its `categories_all`. -/
theorem c6_counterexample :
    (mergeBoth "x.com" (parse_opensources_entry "x.com" {})
        (parse_iffy_row "x.com" { factual := "H" })).category = Cat.other ∧
      (mergeBoth "x.com" (parse_opensources_entry "x.com" {})
          (parse_iffy_row "x.com" { factual := "H" })).categories_all
        = {Cat.reliable} ∧
      (mergeBoth "x.com" (parse_opensources_entry "x.com" {})
          (parse_iffy_row "x.com" { factual := "H" })).category ∉
        (mergeBoth "x.com" (parse_opensources_entry "x.com" {})
          (parse_iffy_row "x.com" { factual := "H" })).categories_all := by
  decide

/-- C6 (amended): every parsed record satisfies
`category = worstF categories_all`, where `worstF` resolves worst-wins and
defaults to `other` on the empty set; a merged record's category is the
most severe member of its `categories_all` provided both contributing
entries satisfy the invariant with nonempty label sets.  (When a source
contributes no mapped labels its defaulted `other` still competes in merge
resolution, so the merged category can fall outside `categories_all`.) -/
theorem c6_category_invariant (d1 d2 d3 : String) (info : OsRaw)
    (row : IffyRow) (o i : Entry) (c : Cat)
    (ho : o.category = worstF o.categories_all)
    (hi : i.category = worstF i.categories_all)
    (hoN : o.categories_all.Nonempty) (hiN : i.categories_all.Nonempty)
    (hc : c ∈ (mergeBoth d3 o i).categories_all) :
    (parse_opensources_entry d1 info).category
        = worstF (parse_opensources_entry d1 info).categories_all ∧
      (parse_iffy_row d2 row).category
        = worstF (parse_iffy_row d2 row).categories_all ∧
      (mergeBoth d3 o i).category ∈ (mergeBoth d3 o i).categories_all ∧
      sevRank (mergeBoth d3 o i).category ≤ sevRank c := by
  have hmerge : (mergeBoth d3 o i).category
      = worstF (mergeBoth d3 o i).categories_all := by
    show worst2 o.category i.category
      = worstF (o.categories_all ∪ i.categories_all)
    rw [ho, hi, worstF_union o.categories_all i.categories_all hoN hiN]
  have hN : (mergeBoth d3 o i).categories_all.Nonempty := by
    show (o.categories_all ∪ i.categories_all).Nonempty
    exact hoN.mono Finset.subset_union_left
  obtain ⟨hm, hmin⟩ := worstF_spec _ hN
  refine ⟨?_, ?_, ?_, ?_⟩
  · show worstOfList (osTypes info) = worstF (osTypes info).toFinset
    exact worstOfList_eq_worstF _
  · show iffyFactualCat (pyStripS row.factual)
      = worstF {iffyFactualCat (pyStripS row.factual)}
    exact (worstF_singleton _).symm
  · rw [hmerge]
    exact hm
  · rw [hmerge]
    exact hmin c hc

theorem c6_category_invariant_witness :
    (parse_opensources_entry "a.com" { type1 := some "fake" }).category
        = worstF (parse_opensources_entry "a.com"
            { type1 := some "fake" }).categories_all ∧
      (parse_iffy_row "b.com" { factual := "L" }).category
        = worstF (parse_iffy_row "b.com" { factual := "L" }).categories_all ∧
      (mergeBoth "a.com" (parse_opensources_entry "a.com" { type1 := some "fake" })
          (parse_iffy_row "b.com" { factual := "L" })).category ∈
        (mergeBoth "a.com" (parse_opensources_entry "a.com" { type1 := some "fake" })
          (parse_iffy_row "b.com" { factual := "L" })).categories_all ∧
      sevRank (mergeBoth "a.com"
          (parse_opensources_entry "a.com" { type1 := some "fake" })
          (parse_iffy_row "b.com" { factual := "L" })).category
        ≤ sevRank Cat.unreliable :=
  c6_category_invariant "a.com" "b.com" "a.com" { type1 := some "fake" }
    { factual := "L" } (parse_opensources_entry "a.com" { type1 := some "fake" })
    (parse_iffy_row "b.com" { factual := "L" }) Cat.unreliable
    (by decide) (by decide) (by decide) (by decide) (by decide)

/-! ### Warm-cache behaviour of the enrichment steps -/

theorem fcApply_domain (c : String → Option FcVal) (e : Entry) :
    (fcApply c e).domain = e.domain := by
  unfold fcApply
  by_cases h : 0 < ((c e.domain).map (fun v => v.claim_count.getD 0)).getD 0 <;>
    simp [h]

theorem fcApply_idem (c : String → Option FcVal) (e : Entry) :
    fcApply c (fcApply c e) = fcApply c e := by
  by_cases h : 0 < ((c e.domain).map (fun v => v.claim_count.getD 0)).getD 0
  · have h1 : fcApply c e = { e with factcheck_claims := some (((c e.domain).map (fun v => v.claim_count.getD 0)).getD 0) } := by
      unfold fcApply
      rw [if_pos h]
    rw [h1]
    unfold fcApply
    rw [if_pos h]
  · have h1 : fcApply c e = e := by
      unfold fcApply
      rw [if_neg h]
    rw [h1, h1]

theorem rdapApply_domain (now : ℤ) (c : String → Option RdapVal) (e : Entry) :
    (rdapApply now c e).domain = e.domain := by
  unfold rdapApply
  rcases c (get_base_domain e.domain) with _ | v
  · rfl
  · by_cases hv : v.error
    · simp [hv]
    · rcases hr : v.registered with _ | reg <;> simp [hv, hr]

theorem rdapApply_idem (now : ℤ) (c : String → Option RdapVal) (e : Entry) :
    rdapApply now c (rdapApply now c e) = rdapApply now c e := by
  rcases hc : c (get_base_domain e.domain) with _ | v
  · have h1 : rdapApply now c e = e := by
      unfold rdapApply
      rw [hc]
    rw [h1, h1]
  · by_cases hv : v.error
    · have h1 : rdapApply now c e = e := by
        unfold rdapApply
        rw [hc]
        simp [hv]
      rw [h1, h1]
    · rcases hr : v.registered with _ | reg
      · have h1 : rdapApply now c e = e := by
          unfold rdapApply
          rw [hc]
          simp [hv, hr]
        rw [h1, h1]
      · have h1 : rdapApply now c e = { e with domain_age_years := some (round1 (((now - reg : ℤ) : ℚ) / 365.25)), domain_registered := some reg } := by
          unfold rdapApply
          rw [hc]
          simp [hv, hr]
        rw [h1]
        unfold rdapApply
        rw [show get_base_domain ({ e with domain_age_years := some (round1 (((now - reg : ℤ) : ℚ) / 365.25)), domain_registered := some reg } : Entry).domain = get_base_domain e.domain from rfl, hc]
        simp [hv, hr]

theorem step_factcheck_warm (q : String → FcVal)
    (cache : String → Option FcVal) (entries : List Entry) (limit : ℕ)
    (hw : ∀ e ∈ entries, (cache e.domain).isSome) :
    step_factcheck q cache entries limit
      = ([], cache, entries.map (fcApply cache)) := by
  unfold step_factcheck
  have h0 : entries.filter (fun e => (cache e.domain).isNone) = [] := by
    rw [List.filter_eq_nil_iff]
    intro a ha
    have hs := hw a ha
    rcases h : cache a.domain with _ | v
    · rw [h] at hs
      simp at hs
    · simp [h]
  simp only [h0]
  by_cases hl : 0 < limit <;> simp [hl]

theorem step_rdap_warm (now : ℤ) (q : String → Option (Option ℤ))
    (cache : String → Option RdapVal) (entries : List Entry) (limit : ℕ)
    (hw : ∀ e ∈ entries, (cache (get_base_domain e.domain)).isSome) :
    step_rdap now q cache entries limit
      = ([], cache, entries.map (rdapApply now cache)) := by
  unfold step_rdap
  have h0 : entries.filter
      (fun e => (cache (get_base_domain e.domain)).isNone) = [] := by
    rw [List.filter_eq_nil_iff]
    intro a ha
    have hs := hw a ha
    rcases h : cache (get_base_domain a.domain) with _ | v
    · rw [h] at hs
      simp at hs
    · simp [h]
  simp only [h0]
  by_cases hl : 0 < limit <;> simp [hl]

/-- C7 (amended): when every key of the input records is already present in
the step's cache, the step queries nothing, its result does not depend on
the query function at all, and re-running it on its own output with the
same cache (and, for the RDAP step, the same current day `now`) reproduces
that output exactly.  (The RDAP step recomputes `domain_age_years` from the
current clock, so warm re-runs on a different day need not be
byte-identical; see the counterexample.) -/
theorem c7_warm_cache_no_queries (cF : String → Option FcVal)
    (cR : String → Option RdapVal) (entries : List Entry) (limit : ℕ)
    (now : ℤ) (qF qF' : String → FcVal) (qR qR' : String → Option (Option ℤ))
    (hwF : ∀ e ∈ entries, (cF e.domain).isSome)
    (hwR : ∀ e ∈ entries, (cR (get_base_domain e.domain)).isSome) :
    (step_factcheck qF cF entries limit).1 = [] ∧
      step_factcheck qF cF entries limit
        = step_factcheck qF' cF entries limit ∧
      (step_factcheck qF cF ((step_factcheck qF cF entries limit).2.2)
          limit).2.2
        = (step_factcheck qF cF entries limit).2.2 ∧
      (step_rdap now qR cR entries limit).1 = [] ∧
      step_rdap now qR cR entries limit
        = step_rdap now qR' cR entries limit ∧
      (step_rdap now qR cR ((step_rdap now qR cR entries limit).2.2)
          limit).2.2
        = (step_rdap now qR cR entries limit).2.2 := by
  have hF := step_factcheck_warm qF cF entries limit hwF
  have hF' := step_factcheck_warm qF' cF entries limit hwF
  have hwF2 : ∀ e ∈ entries.map (fcApply cF), (cF e.domain).isSome := by
    intro e he
    obtain ⟨a, ha, rfl⟩ := List.mem_map.mp he
    rw [fcApply_domain]
    exact hwF a ha
  have hF2 := step_factcheck_warm qF cF (entries.map (fcApply cF)) limit hwF2
  have hR := step_rdap_warm now qR cR entries limit hwR
  have hR' := step_rdap_warm now qR' cR entries limit hwR
  have hwR2 : ∀ e ∈ entries.map (rdapApply now cR),
      (cR (get_base_domain e.domain)).isSome := by
    intro e he
    obtain ⟨a, ha, rfl⟩ := List.mem_map.mp he
    rw [rdapApply_domain]
    exact hwR a ha
  have hR2 := step_rdap_warm now qR cR (entries.map (rdapApply now cR))
    limit hwR2
  refine ⟨by rw [hF], by rw [hF, hF'], ?_, by rw [hR], by rw [hR, hR'], ?_⟩
  · rw [hF]
    show (step_factcheck qF cF (entries.map (fcApply cF)) limit).2.2
      = entries.map (fcApply cF)
    rw [hF2]
    show (entries.map (fcApply cF)).map (fcApply cF) = entries.map (fcApply cF)
    rw [List.map_map]
    exact List.map_congr_left fun a _ => fcApply_idem cF a
  · rw [hR]
    show (step_rdap now qR cR (entries.map (rdapApply now cR)) limit).2.2
      = entries.map (rdapApply now cR)
    rw [hR2]
    show (entries.map (rdapApply now cR)).map (rdapApply now cR)
      = entries.map (rdapApply now cR)
    rw [List.map_map]
    exact List.map_congr_left fun a _ => rdapApply_idem now cR a

/-- A sample record for the warm-cache statements. -/
def c7entry : Entry :=
  { domain := "old.com", category := Cat.fake, categories_all := {Cat.fake},
    sources := ["opensources"] }

/-- A warm RDAP cache for `c7entry`: registered at day 0, no error. -/
def c7cache : String → Option RdapVal :=
  fun d => if d = "old.com" then some { registered := some 0 } else none

theorem c7_warm_cache_no_queries_witness :
    (step_factcheck (fun _ => {}) (fun d => if d = "old.com" then some { claim_count := some 3 } else none) [c7entry] 0).1 = [] ∧
      step_factcheck (fun _ => {}) (fun d => if d = "old.com" then some { claim_count := some 3 } else none) [c7entry] 0
        = step_factcheck (fun _ => { claim_count := some 9 }) (fun d => if d = "old.com" then some { claim_count := some 3 } else none) [c7entry] 0 ∧
      (step_factcheck (fun _ => {}) (fun d => if d = "old.com" then some { claim_count := some 3 } else none) ((step_factcheck (fun _ => {}) (fun d => if d = "old.com" then some { claim_count := some 3 } else none) [c7entry] 0).2.2) 0).2.2
        = (step_factcheck (fun _ => {}) (fun d => if d = "old.com" then some { claim_count := some 3 } else none) [c7entry] 0).2.2 ∧
      (step_rdap 3652 (fun _ => none) c7cache [c7entry] 0).1 = [] ∧
      step_rdap 3652 (fun _ => none) c7cache [c7entry] 0
        = step_rdap 3652 (fun _ => some (some 7)) c7cache [c7entry] 0 ∧
      (step_rdap 3652 (fun _ => none) c7cache ((step_rdap 3652 (fun _ => none) c7cache [c7entry] 0).2.2) 0).2.2
        = (step_rdap 3652 (fun _ => none) c7cache [c7entry] 0).2.2 :=
  c7_warm_cache_no_queries
    (fun d => if d = "old.com" then some { claim_count := some 3 } else none)
    c7cache [c7entry] 0 3652 (fun _ => {}) (fun _ => { claim_count := some 9 })
    (fun _ => none) (fun _ => some (some 7)) (by decide) (by decide)

/-- C7 counterexample: with the same fully warm RDAP cache, the step
queries nothing on either run, yet running it at day 3652 and at day 4018
yields different enriched records (`domain_age_years` 10.0 vs 11.0),
because the age is recomputed from the current clock on every run. -/
theorem c7_counterexample :
    (step_rdap 3652 (fun _ => none) c7cache [c7entry] 0).1 = [] ∧
      (step_rdap 4018 (fun _ => none) c7cache [c7entry] 0).1 = [] ∧
      ((step_rdap 3652 (fun _ => none) c7cache [c7entry] 0).2.2).map
          Entry.domain_age_years ≠
        ((step_rdap 4018 (fun _ => none) c7cache [c7entry] 0).2.2).map
          Entry.domain_age_years := by
  refine ⟨by decide, by decide, ?_⟩
  have e1 : ((step_rdap 3652 (fun _ => none) c7cache [c7entry] 0).2.2).map
      Entry.domain_age_years
      = [some (round1 (((3652 - 0 : ℤ) : ℚ) / 365.25))] := rfl
  have e2 : ((step_rdap 4018 (fun _ => none) c7cache [c7entry] 0).2.2).map
      Entry.domain_age_years
      = [some (round1 (((4018 - 0 : ℤ) : ℚ) / 365.25))] := rfl
  have h1 : round1 (((3652 - 0 : ℤ) : ℚ) / 365.25) = 10 := by
    unfold round1
    rw [show round (((3652 - 0 : ℤ) : ℚ) / 365.25 * 10) = 100 from by
      rw [round_eq, Int.floor_eq_iff]
      norm_num]
    norm_num
  have h2 : round1 (((4018 - 0 : ℤ) : ℚ) / 365.25) = 11 := by
    unfold round1
    rw [show round (((4018 - 0 : ℤ) : ℚ) / 365.25 * 10) = 110 from by
      rw [round_eq, Int.floor_eq_iff]
      norm_num]
    norm_num
  rw [e1, e2, h1, h2]
  norm_num
